import Mathlib

set_option maxHeartbeats 1000000

/-!
Shallow embedding of `src/pro.py`, a Streamlit patient-registry application.
The embedding covers the field validators, the persistence helpers
(`ensure_columns`, `load_data`, `save_data`), duplicate detection and the
three-way duplicate resolution of the submit handler, the sidebar filter
pipeline, and the Excel download fallback (`df_to_excel_bytes`).

Python strings are modelled as Lean `String` (a list of Unicode code points,
matching Python's view of a `str` as a sequence of code points).  Python
`str.lower` / `str.strip` are modelled exactly on ASCII data; `str.isdigit`
is modelled by a character class that is exact on ASCII and contains
representative non-ASCII Unicode decimal digits.
-/

/-- A runtime Python value, as far as the validators inspect one
(`isinstance(s, str)` guards both validators). -/
inductive PyVal where
  | str (s : String)
  | int (n : Int)
  | none
  | listv (l : List String)
  | boolv (b : Bool)
deriving DecidableEq

/-- Character class of Python `str.isdigit`: exact on ASCII, and containing
the non-ASCII Unicode decimal digits of the Arabic-Indic (U+0660..U+0669),
Extended Arabic-Indic (U+06F0..U+06F9) and Devanagari (U+0966..U+096F) blocks
and the superscript digits U+00B9/U+00B2/U+00B3.  Python classifies further
non-ASCII code points as digits as well; the model keeps the ASCII behaviour
exact and witnesses the non-ASCII behaviour on the listed ranges. -/
def pyIsDigitChar (c : Char) : Bool :=
  c.isDigit
  || (0x660 ≤ c.toNat && c.toNat ≤ 0x669)
  || (0x6F0 ≤ c.toNat && c.toNat ≤ 0x6F9)
  || (0x966 ≤ c.toNat && c.toNat ≤ 0x96F)
  || c.toNat == 0xB9 || c.toNat == 0xB2 || c.toNat == 0xB3

/-- Python `str.isdigit`: true iff the string is non-empty and every
character is a digit character. -/
def pyIsdigit (s : String) : Bool :=
  !s.data.isEmpty && s.data.all pyIsDigitChar

/-- Whitespace recognised by Python `str.strip`, restricted to the ASCII
whitespace characters (space, tab, newline, carriage return, vertical tab,
form feed). -/
def isPySpace (c : Char) : Bool :=
  c == ' ' || c == '\t' || c == '\n'
  || c == Char.ofNat 0x0D || c == Char.ofNat 0x0B || c == Char.ofNat 0x0C

/-- Remove leading whitespace (Python `str.lstrip`). -/
def stripLeft (l : List Char) : List Char := l.dropWhile isPySpace

/-- Remove trailing whitespace (Python `str.rstrip`). -/
def stripRight (l : List Char) : List Char := (l.reverse.dropWhile isPySpace).reverse

/-- Python `str.strip`: remove leading and trailing whitespace. -/
def pyStrip (s : String) : String := String.mk (stripRight (stripLeft s.data))

/-- Python `str.lower`, exact on ASCII data. -/
def pyLower (s : String) : String := String.mk (s.data.map Char.toLower)

/-- `valid_text` from `pro.py`:
`isinstance(s, str) and len(s.strip()) >= 3`. -/
def valid_text (v : PyVal) : Bool :=
  match v with
  | .str s => decide (3 ≤ (pyStrip s).length)
  | _ => false

/-- `valid_mobile` from `pro.py`:
`isinstance(s, str) and s.isdigit() and len(s) == 10`. -/
def valid_mobile (v : PyVal) : Bool :=
  match v with
  | .str s => pyIsdigit s && s.length == 10
  | _ => false

/-- `isinstance(v, str)`. -/
def isPyStr : PyVal → Bool
  | .str _ => true
  | _ => false

/-- One row of the patient table.  Numeric cells are `Option`-valued to model
pandas missing values (`NaN`/`NaT`) in loaded data; text cells are strings.
`Entry Date` is the (parsed) calendar date as a day number. -/
structure Row where
  entryDate : Option Int
  doctorName : String
  areaCode : Option Int
  city : String
  patientName : String
  mobileNo : String
  disease : String
  goalAmount : Option Int
deriving DecidableEq

/-- `EXPECTED_COLS` from `pro.py`. -/
def EXPECTED_COLS : List String :=
  ["Entry Date", "Doctor Name", "Area Code", "City",
   "Patient Name", "Mobile No", "Disease", "Goal Amount"]

/-- The `new_row` DataFrame built by the submit handler after validation:
text fields stripped, numeric fields coerced to `int`. -/
def mkNewRow (entry : Int) (dr : String) (area : Int) (cty : String)
    (pat : String) (mob : String) (dis : String) (goal : Int) : Row :=
  { entryDate := some entry, doctorName := pyStrip dr, areaCode := some area,
    city := pyStrip cty, patientName := pyStrip pat, mobileNo := pyStrip mob,
    disease := pyStrip dis, goalAmount := some goal }

/-- `mask_dup` from the submit handler: the existing Doctor/Patient names
(as strings) are compared lower-cased against the lower-cased stripped form
inputs, and `Mobile No` is compared exactly against the stripped input. -/
def maskDup (dr pat mob : String) (r : Row) : Bool :=
  (pyLower r.doctorName == pyLower (pyStrip dr))
  && (pyLower r.patientName == pyLower (pyStrip pat))
  && (r.mobileNo == pyStrip mob)

/-- The specification predicate for C2: a row is a duplicate of a candidate
record when Doctor Name and Patient Name match case-insensitively and
Mobile No matches exactly (character for character). -/
def isDuplicate (r cand : Row) : Prop :=
  pyLower r.doctorName = pyLower cand.doctorName
  ∧ pyLower r.patientName = pyLower cand.patientName
  ∧ r.mobileNo = cand.mobileNo

/-- `dup.index`: the index labels of the rows matched by the duplicate mask.
After `load_data()` the DataFrame carries a fresh `RangeIndex`, so the labels
are the row positions. -/
def dupIndices (p : Row → Bool) (tbl : List Row) : List Nat :=
  (tbl.enum.filter (fun q => p q.2)).map Prod.fst

/-- `df.drop(labels)`: remove the rows whose index label is in `labels`. -/
def dropByLabels (tbl : List Row) (labels : List Nat) : List Row :=
  (tbl.enum.filter (fun q => !labels.contains q.1)).map Prod.snd

/-- The table loaded by `append_row` (and the submit handler) from the
persisted store; a missing file loads as the empty table. -/
def loadFromStore : Option (List Row) → List Row
  | some t => t
  | Option.none => []

/-- The three outcomes offered when a duplicate is found. -/
inductive DupChoice where
  | removeAndSave
  | saveAnyway
  | cancel
deriving DecidableEq

/-- The duplicate-resolution branch of the submit handler, returning the
resulting in-memory table together with the persisted store.
`removeAndSave` drops the matched labels, appends the candidate and saves;
`saveAnyway` is `append_row(new_row)` (reload from the store, append, save);
`cancel` saves nothing. -/
def resolveDuplicate (choice : DupChoice) (dr pat mob : String) (cand : Row)
    (tbl : List Row) (store : Option (List Row)) : List Row × Option (List Row) :=
  match choice with
  | .removeAndSave =>
      let t := dropByLabels tbl (dupIndices (maskDup dr pat mob) tbl) ++ [cand]
      (t, some t)
  | .saveAnyway =>
      let t := loadFromStore store ++ [cand]
      (t, some t)
  | .cancel => (tbl, store)

/-- A pandas DataFrame viewed structurally: an ordered list of named columns. -/
abbrev RawTable := List (String × List PyVal)

/-- `df.columns`. -/
def rawColNames (df : RawTable) : List String := df.map Prod.fst

/-- `c in df.columns`. -/
def rawHasCol (df : RawTable) (c : String) : Bool := df.any (fun q => q.1 == c)

/-- `len(df)`: the common length of the columns (0 for a column-less frame). -/
def rawNumRows : RawTable → Nat
  | [] => 0
  | q :: _ => q.2.length

/-- `df[c]` as an `Option` (the first column named `c`). -/
def rawGetCol (df : RawTable) (c : String) : Option (List PyVal) :=
  (df.find? (fun q => q.1 == c)).map Prod.snd

/-- `df[c] = v` on an existing column: replace the values of column `c`. -/
def rawSetCol (df : RawTable) (c : String) (v : List PyVal) : RawTable :=
  df.map (fun q => if q.1 == c then (q.1, v) else q)

/-- One iteration of the `ensure_columns` loop:
`if c not in df.columns: df[c] = ""` (a new column is appended at the end,
filled with the empty string broadcast over the current rows). -/
def ensureStep (acc : RawTable) (c : String) : RawTable :=
  if rawHasCol acc c then acc
  else acc ++ [(c, List.replicate (rawNumRows acc) (PyVal.str ""))]

/-- `ensure_columns` from `pro.py`: add each missing expected column as empty
text, then select the columns in the fixed expected order (`df[EXPECTED_COLS]`). -/
def ensure_columns (df : RawTable) : RawTable :=
  EXPECTED_COLS.map (fun c => (c, (rawGetCol (EXPECTED_COLS.foldl ensureStep df) c).getD []))

/-- `load_data` from `pro.py`.  The persisted CSV file is modelled as
`Option RawTable` (`Option.none` when the file is absent), and the
`pd.to_datetime(...).dt.date` coercion of the `Entry Date` column is a
parameter `dateCoerce` applied elementwise to the column when present. -/
def load_data (dateCoerce : List PyVal → List PyVal) (store : Option RawTable) : RawTable :=
  match store with
  | some df0 =>
      let df1 :=
        if rawHasCol df0 "Entry Date" then
          rawSetCol df0 "Entry Date" (dateCoerce ((rawGetCol df0 "Entry Date").getD []))
        else df0
      ensure_columns df1
  | Option.none => EXPECTED_COLS.map (fun c => (c, ([] : List PyVal)))

/-- Substring test on code-point lists (`pat` occurs contiguously in the
second argument). -/
def containsSub (pat : List Char) : List Char → Bool
  | [] => pat.isEmpty
  | c :: t => pat.isPrefixOf (c :: t) || containsSub pat t

/-- pandas `col.str.contains(txt, case=False, na=False)` for a literal
pattern: case-insensitive substring containment. -/
def strContainsCI (hay pat : String) : Bool :=
  containsSub (pyLower pat).data (pyLower hay).data

/-- Sidebar widget state for a text column: the multiselect selection
(used when the column has at most 50 distinct values) and the text-filter
input (used otherwise). -/
structure TextColUI where
  multisel : List String
  txt : String

/-- Sidebar widget state for a numeric column: the selected slider range and
the equality-toggle checkbox. -/
structure NumUI where
  lo : Int
  hi : Int
  toggle : Bool

/-- All sidebar widget state: the `Entry Date` range (when the date picker
returned a two-element range), the per-column widgets, and the global
text-search input. -/
structure SidebarUI where
  dateRange : Option (Int × Int)
  doctorUI : TextColUI
  areaUI : NumUI
  cityUI : TextColUI
  patientUI : TextColUI
  mobileUI : TextColUI
  diseaseUI : TextColUI
  goalUI : NumUI
  globalTxt : String

/-- `pd.to_datetime(col).dt.date.between(d0, d1)` on one row: inclusive date
range, false on an unparsable (`NaT`) entry. -/
def dateBetweenPred (d0 d1 : Int) (r : Row) : Bool :=
  match r.entryDate with
  | some d => decide (d0 ≤ d ∧ d ≤ d1)
  | Option.none => false

/-- The `Entry Date` branch of the sidebar filter loop: if the column has any
parsable dates and the picker returned a two-element range, keep the rows
whose date lies inclusively between the endpoints. -/
def applyDateFilter (ui : Option (Int × Int)) (tbl : List Row) : List Row :=
  if (tbl.filterMap Row.entryDate).isEmpty then tbl
  else
    match ui with
    | some (d0, d1) => tbl.filter (dateBetweenPred d0 d1)
    | Option.none => tbl

/-- `filtered[col].dropna()` for a numeric column. -/
def colVals (get : Row → Option Int) (tbl : List Row) : List Int := tbl.filterMap get

/-- `non_null.min()`. -/
def listMin : List Int → Option Int
  | [] => Option.none
  | v :: vs => some (vs.foldl min v)

/-- `non_null.max()`. -/
def listMax : List Int → Option Int
  | [] => Option.none
  | v :: vs => some (vs.foldl max v)

/-- `(filtered[col] >= sel[0]) & (filtered[col] <= sel[1])` on one row:
inclusive numeric range, false on a missing value. -/
def numericRangePred (get : Row → Option Int) (lo hi : Int) (r : Row) : Bool :=
  match get r with
  | some x => decide (lo ≤ x ∧ x ≤ hi)
  | Option.none => false

/-- The numeric branch of the sidebar filter loop.  With a non-empty
`dropna()` column: when `min < max` a range slider filters by the inclusive
selected range; when `min == max` a checkbox, if ticked, keeps only the rows
equal to that value.  The slider values of the source are floats of integral
values, on which the comparisons are exact, so the model uses `Int`. -/
def applyNumericColumnFilter (get : Row → Option Int) (ui : NumUI) (tbl : List Row) : List Row :=
  match listMin (colVals get tbl), listMax (colVals get tbl) with
  | some mn, some mx =>
      if mn < mx then tbl.filter (numericRangePred get ui.lo ui.hi)
      else if ui.toggle then tbl.filter (fun r => get r == some mn)
      else tbl
  | _, _ => tbl

/-- The text branch of the sidebar filter loop: with at most 50 distinct
values a multiselect keeps the selected values (an empty selection is falsy
in the source and applies no filter); otherwise a text input filters by
case-insensitive containment (the empty input applies no filter).  The
source sorts the distinct values for display only, which does not affect
the filtering and is omitted. -/
def applyTextColumnFilter (get : Row → String) (ui : TextColUI) (tbl : List Row) : List Row :=
  if tbl.isEmpty then tbl
  else if ((tbl.map get).dedup).length ≤ 50 then
    if ui.multisel.isEmpty then tbl
    else tbl.filter (fun r => ui.multisel.contains (get r))
  else
    if ui.txt == "" then tbl
    else tbl.filter (fun r => strContainsCI (get r) ui.txt)

/-- `str(entry date cell)` as used by `astype(str)` in the global search
(`pd.NaT` renders as the string `NaT`). -/
def rowEntryDateText (r : Row) : String :=
  match r.entryDate with
  | some d => toString d
  | Option.none => "NaT"

/-- One row of the global-search mask: the OR over the object-dtype columns
of case-insensitive containment of the search term.  In the loaded frame the
object-dtype columns are `Entry Date` (a column of date objects) and the
five text columns. -/
def globalSearchPred (txt : String) (r : Row) : Bool :=
  strContainsCI (rowEntryDateText r) txt || strContainsCI r.doctorName txt
  || strContainsCI r.city txt || strContainsCI r.patientName txt
  || strContainsCI r.mobileNo txt || strContainsCI r.disease txt

/-- The global text search: a non-empty term keeps the rows whose mask bit
is set. -/
def applyGlobalSearch (txt : String) (tbl : List Row) : List Row :=
  if txt == "" then tbl else tbl.filter (globalSearchPred txt)

/-- The whole sidebar filter pipeline: the per-column filters applied in
`EXPECTED_COLS` order (each computing its widget bounds and options from the
table as filtered so far, as the source does), then the global text search. -/
def applySidebarFilters (ui : SidebarUI) (tbl : List Row) : List Row :=
  applyGlobalSearch ui.globalTxt
    (applyNumericColumnFilter Row.goalAmount ui.goalUI
      (applyTextColumnFilter Row.disease ui.diseaseUI
        (applyTextColumnFilter Row.mobileNo ui.mobileUI
          (applyTextColumnFilter Row.patientName ui.patientUI
            (applyTextColumnFilter Row.city ui.cityUI
              (applyNumericColumnFilter Row.areaCode ui.areaUI
                (applyTextColumnFilter Row.doctorName ui.doctorUI
                  (applyDateFilter ui.dateRange tbl))))))))

/-- The CSV header line of the fixed schema. -/
def headerLine : String := String.intercalate "," EXPECTED_COLS

/-- Render an optional integer cell (missing renders empty, as pandas
writes NaN to CSV). -/
def cellOptInt : Option Int → String
  | some n => toString n
  | Option.none => ""

/-- One CSV data line of a row. -/
def rowToCsvLine (r : Row) : String :=
  String.intercalate ","
    [cellOptInt r.entryDate, r.doctorName, cellOptInt r.areaCode, r.city,
     r.patientName, r.mobileNo, r.disease, cellOptInt r.goalAmount]

/-- `df.to_csv(index=False)`: the header line followed by one line per row,
each terminated by a newline. -/
def to_csv (tbl : List Row) : String :=
  headerLine ++ "\n" ++ String.join (tbl.map (fun r => rowToCsvLine r ++ "\n"))

/-- `df_to_excel_bytes` from `pro.py`.  The Excel serialization
(`pd.ExcelWriter` with the optional `openpyxl` engine) is modelled as a
parameter that may fail (`Option.none`); on failure the function falls back
to the CSV serialization of the same table.  Payloads are modelled as the
serialized text. -/
def df_to_excel_bytes (excelWriter : List Row → Option String) (df : List Row) : String :=
  match excelWriter df with
  | some b => b
  | Option.none => to_csv df

/-- A row whose only populated cell is `Goal Amount` (scenario data for the
numeric-filter claim). -/
def goalRow (n : Int) : Row :=
  { entryDate := Option.none, doctorName := "", areaCode := Option.none, city := "",
    patientName := "", mobileNo := "", disease := "", goalAmount := some n }

/-- The five-row scenario table with Goal Amount values 100..500. -/
def scenarioTbl : List Row :=
  [goalRow 100, goalRow 200, goalRow 300, goalRow 400, goalRow 500]

/-- A ten-character string of Arabic-Indic digits (U+0660), each of which
Python classifies as a digit. -/
def tenArabicDigits : String := String.mk (List.replicate 10 (Char.ofNat 0x660))

/-- An existing row matching the claim example: lower-case doctor, upper-case
patient, same mobile number. -/
def raoRow : Row :=
  { entryDate := Option.none, doctorName := "dr. rao", areaCode := Option.none,
    city := "Chennai", patientName := "ASHA", mobileNo := "9876543210",
    disease := "Flu", goalAmount := Option.none }

/-- The same row with the last digit of the mobile number changed. -/
def raoRowOtherMobile : Row := { raoRow with mobileNo := "9876543211" }

/-- A concrete candidate record for evaluating the duplicate resolution. -/
def cand0 : Row := mkNewRow 0 "Dr. Rao" 1 "Chennai" "Asha" "9876543210" "Flu" 5000

/-- A raw table with an unexpected extra column. -/
def extraDf : RawTable := [("Extra", [PyVal.str "x"]), ("City", [PyVal.str "Pune"])]

/-- A two-row raw table missing most expected columns. -/
def legacyDf : RawTable :=
  [("Mobile No", [PyVal.str "9876543210", PyVal.str "1112223334"]),
   ("Extra", [PyVal.int 1, PyVal.int 2])]

example : valid_mobile (PyVal.str "9876543210") = true := by decide
example : valid_mobile (PyVal.str "98765432") = false := by decide
example : valid_mobile (PyVal.str "98765-4321") = false := by decide
example : valid_mobile (PyVal.str tenArabicDigits) = true := by decide
example : valid_text (PyVal.str "  ab ") = false := by decide
example : valid_text (PyVal.str " abc ") = true := by decide

/-! ## Helper lemmas -/

theorem dropWhile_self_idem (p : Char → Bool) (l : List Char) :
    List.dropWhile p (List.dropWhile p l) = List.dropWhile p l := by
  induction l with
  | nil => rfl
  | cons a t ih =>
    cases h : p a with
    | true => simp [List.dropWhile_cons, h, ih]
    | false => simp [List.dropWhile_cons, h]

theorem length_dropWhile_le' (p : Char → Bool) (l : List Char) :
    (List.dropWhile p l).length ≤ l.length := by
  induction l with
  | nil => exact Nat.le_refl 0
  | cons a t ih =>
    cases h : p a with
    | true => simp only [List.dropWhile_cons, h, if_true]; exact Nat.le_succ_of_le ih
    | false => simp [List.dropWhile_cons, h]

theorem exists_append_dropWhile (p : Char → Bool) (l : List Char) :
    ∃ l₁, l₁ ++ List.dropWhile p l = l := by
  induction l with
  | nil => exact ⟨[], rfl⟩
  | cons a t ih =>
    cases h : p a with
    | true =>
      obtain ⟨l₁, hl₁⟩ := ih
      exact ⟨a :: l₁, by simp [List.dropWhile_cons, h, hl₁]⟩
    | false => exact ⟨[], by simp [List.dropWhile_cons, h]⟩

theorem dropWhile_eq_self_of_append (p : Char → Bool) (l₁ l₂ : List Char)
    (h : List.dropWhile p (l₁ ++ l₂) = l₁ ++ l₂) : List.dropWhile p l₁ = l₁ := by
  cases l₁ with
  | nil => rfl
  | cons a t =>
    rw [List.cons_append] at h
    cases hpa : p a with
    | true =>
      exfalso
      rw [List.dropWhile_cons, if_pos hpa] at h
      have hle := length_dropWhile_le' p (t ++ l₂)
      have hlen := congrArg List.length h
      rw [List.length_cons] at hlen
      omega
    | false => simp [List.dropWhile_cons, hpa]

theorem stripRight_idem (l : List Char) : stripRight (stripRight l) = stripRight l := by
  simp [stripRight, List.reverse_reverse, dropWhile_self_idem]

theorem pyStrip_idem (s : String) : pyStrip (pyStrip s) = pyStrip s := by
  unfold pyStrip
  have hdata : (String.mk (stripRight (stripLeft s.data))).data
      = stripRight (stripLeft s.data) := rfl
  rw [hdata]
  set y := stripLeft s.data with hy
  have hyfix : stripLeft y = y := dropWhile_self_idem isPySpace s.data
  obtain ⟨l₁, hl₁⟩ := exists_append_dropWhile isPySpace y.reverse
  have hsplit : y = stripRight y ++ l₁.reverse := by
    conv_lhs => rw [← List.reverse_reverse y, ← hl₁]
    simp [stripRight]
  have hleft : stripLeft (stripRight y) = stripRight y := by
    apply dropWhile_eq_self_of_append isPySpace (stripRight y) l₁.reverse
    rw [← hsplit]
    exact hyfix
  rw [hleft, stripRight_idem]


theorem to_csv_ne_empty (tbl : List Row) : to_csv tbl ≠ "" := by
  intro hcon
  have hlen := congrArg String.length hcon
  rw [to_csv, String.length_append, String.length_append] at hlen
  have hpos : 0 < headerLine.length := by decide
  simp at hlen
  omega

/-! ## Claim theorems -/

/-- C8: text validation is invariant under whitespace trimming: validating
the trimmed string gives the same pass/fail result as validating the string
itself, because a text field is valid iff its trimmed length is at least 3. -/
theorem valid_text_trim_invariant (s : String) :
    valid_text (PyVal.str (pyStrip s)) = valid_text (PyVal.str s)
    ∧ (valid_text (PyVal.str s) = true ↔ 3 ≤ (pyStrip s).length) := by
  constructor
  · simp [valid_text, pyStrip_idem]
  · simp [valid_text]

/-- C10: the validators are total over arbitrary Python values: on any
non-string input they return false (the `isinstance(s, str)` guard) rather
than raising. -/
theorem validators_false_on_nonstring (v : PyVal) (h : isPyStr v = false) :
    valid_text v = false ∧ valid_mobile v = false := by
  cases v <;> simp_all [isPyStr, valid_text, valid_mobile]

/-- Witness for C10 at the Python value `None`. -/
theorem validators_false_on_nonstring_eval :
    valid_text PyVal.none = false ∧ valid_mobile PyVal.none = false :=
  validators_false_on_nonstring PyVal.none rfl

/-- C3 counterexample: a ten-character string of Arabic-Indic digits
(U+0660) is accepted by `valid_mobile` (Python `str.isdigit` classifies
these code points as digits) although it does not consist of ASCII digits,
so acceptance is not equivalent to matching `^[0-9]{10}$`. -/
theorem valid_mobile_nonascii_cex :
    valid_mobile (PyVal.str tenArabicDigits) = true
    ∧ tenArabicDigits.data.all Char.isDigit = false := by decide

/-- C3 (amended): `valid_mobile` accepts a string iff it has length exactly
10 and every character is a digit under Python's `str.isdigit`
classification (which extends the ASCII digits); on ASCII strings this
coincides with `^[0-9]{10}$`.  The claim examples hold: 8 digits rejected,
10 ASCII digits accepted, a hyphenated string rejected. -/
theorem valid_mobile_ten_pydigits_iff :
    (∀ s : String, valid_mobile (PyVal.str s) = true
        ↔ s.length = 10 ∧ s.data.all pyIsDigitChar = true)
    ∧ valid_mobile (PyVal.str "9876543210") = true
    ∧ valid_mobile (PyVal.str "98765432") = false
    ∧ valid_mobile (PyVal.str "98765-4321") = false := by
  refine ⟨fun s => ?_, by decide, by decide, by decide⟩
  obtain ⟨l⟩ := s
  cases l with
  | nil => simp [valid_mobile, pyIsdigit, String.length]
  | cons c t =>
    simp only [valid_mobile, pyIsdigit, String.length, List.isEmpty_cons,
      Bool.not_false, Bool.true_and, Bool.and_eq_true, beq_iff_eq]
    tauto

/-- C2: a row passes the duplicate mask iff its Doctor Name and Patient Name
match the candidate record's case-insensitively and its Mobile No matches
exactly; the claim's example matches, and the same row with a different
mobile number does not. -/
theorem maskDup_iff_isDuplicate (ed : Int) (dr : String) (area : Int)
    (cty pat mob dis : String) (goal : Int) (r : Row) :
    (maskDup dr pat mob r = true ↔ isDuplicate r (mkNewRow ed dr area cty pat mob dis goal))
    ∧ maskDup "Dr. Rao" "Asha" "9876543210" raoRow = true
    ∧ maskDup "Dr. Rao" "Asha" "9876543210" raoRowOtherMobile = false := by
  refine ⟨?_, by decide, by decide⟩
  simp only [maskDup, isDuplicate, mkNewRow, Bool.and_eq_true, beq_iff_eq]
  tauto

/-- C7: the Excel export either returns the Excel writer's payload, or, when
the writer fails, falls back to the CSV serialization of the same table; in
all cases the caller receives a non-empty payload and no error escapes. -/
theorem df_to_excel_bytes_fallback (w : List Row → Option String) (df : List Row)
    (h : ∀ b, w df = some b → b ≠ "") :
    df_to_excel_bytes w df ≠ ""
    ∧ (w df = Option.none → df_to_excel_bytes w df = to_csv df)
    ∧ (∀ b, w df = some b → df_to_excel_bytes w df = b) := by
  cases hw : w df with
  | none =>
    refine ⟨?_, fun _ => by simp [df_to_excel_bytes, hw],
      fun b hb => Option.noConfusion hb⟩
    simpa [df_to_excel_bytes, hw] using to_csv_ne_empty df
  | some b =>
    refine ⟨?_, fun hn => Option.noConfusion hn, fun b2 hb2 => ?_⟩
    · simpa [df_to_excel_bytes, hw] using h b hw
    · cases hb2
      simp [df_to_excel_bytes, hw]

/-- Witness for C7: a writer that always fails still yields a non-empty
payload. -/
theorem df_to_excel_bytes_fallback_eval :
    df_to_excel_bytes (fun _ => Option.none) [] ≠ "" :=
  (df_to_excel_bytes_fallback (fun _ => Option.none) []
    (fun b hb => Option.noConfusion hb)).1

theorem applyDateFilter_sublist (ui : Option (Int × Int)) (tbl : List Row) :
    List.Sublist (applyDateFilter ui tbl) tbl := by
  unfold applyDateFilter
  split
  · exact List.Sublist.refl _
  · split
    · exact List.filter_sublist _
    · exact List.Sublist.refl _

theorem applyNumericColumnFilter_sublist (get : Row → Option Int) (ui : NumUI)
    (tbl : List Row) : List.Sublist (applyNumericColumnFilter get ui tbl) tbl := by
  unfold applyNumericColumnFilter
  split
  · split
    · exact List.filter_sublist _
    · split
      · exact List.filter_sublist _
      · exact List.Sublist.refl _
  · exact List.Sublist.refl _

theorem applyTextColumnFilter_sublist (get : Row → String) (ui : TextColUI)
    (tbl : List Row) : List.Sublist (applyTextColumnFilter get ui tbl) tbl := by
  unfold applyTextColumnFilter
  split
  · exact List.Sublist.refl _
  · split
    · split
      · exact List.Sublist.refl _
      · exact List.filter_sublist _
    · split
      · exact List.Sublist.refl _
      · exact List.filter_sublist _

theorem applyGlobalSearch_sublist (txt : String) (tbl : List Row) :
    List.Sublist (applyGlobalSearch txt tbl) tbl := by
  unfold applyGlobalSearch
  split
  · exact List.Sublist.refl _
  · exact List.filter_sublist _

/-- C5: the whole sidebar filter pipeline, for every combination of
per-column and global filters, returns a sublist of the unfiltered table:
the surviving rows keep their relative order. -/
theorem applySidebarFilters_order_preserving (ui : SidebarUI) (tbl : List Row) :
    List.Sublist (applySidebarFilters ui tbl) tbl := by
  unfold applySidebarFilters
  exact (applyGlobalSearch_sublist _ _).trans
    ((applyNumericColumnFilter_sublist _ _ _).trans
      ((applyTextColumnFilter_sublist _ _ _).trans
        ((applyTextColumnFilter_sublist _ _ _).trans
          ((applyTextColumnFilter_sublist _ _ _).trans
            ((applyTextColumnFilter_sublist _ _ _).trans
              ((applyNumericColumnFilter_sublist _ _ _).trans
                ((applyTextColumnFilter_sublist _ _ _).trans
                  (applyDateFilter_sublist _ _))))))))

/-- C6: for a numeric column the filter is the inclusive range predicate
when the column minimum is strictly below the maximum; when minimum and
maximum coincide (all non-missing values identical) it degrades to an
equality toggle that, when enabled, keeps exactly the rows equal to that
value; and on the five-row Goal Amount scenario 100..500 the range
filter 200..400 returns exactly the three middle rows. -/
theorem applyNumericColumnFilter_range_and_toggle (get : Row → Option Int)
    (ui : NumUI) (tbl : List Row) (mn mx : Int)
    (h1 : listMin (colVals get tbl) = some mn)
    (h2 : listMax (colVals get tbl) = some mx) :
    (mn < mx → applyNumericColumnFilter get ui tbl
        = tbl.filter (numericRangePred get ui.lo ui.hi))
    ∧ (mn = mx → ui.toggle = true →
        applyNumericColumnFilter get ui tbl = tbl.filter (fun r => get r == some mn)
        ∧ ∀ r ∈ applyNumericColumnFilter get ui tbl, get r = some mn)
    ∧ applyNumericColumnFilter Row.goalAmount ⟨200, 400, false⟩ scenarioTbl
        = [goalRow 200, goalRow 300, goalRow 400] := by
  refine ⟨fun hlt => ?_, fun heq htog => ?_, by decide⟩
  · simp only [applyNumericColumnFilter, h1, h2]
    rw [if_pos hlt]
  · subst heq
    have hres : applyNumericColumnFilter get ui tbl
        = tbl.filter (fun r => get r == some mn) := by
      simp only [applyNumericColumnFilter, h1, h2]
      rw [if_neg (lt_irrefl mn), if_pos htog]
    refine ⟨hres, fun r hr => ?_⟩
    rw [hres] at hr
    exact eq_of_beq (List.mem_filter.1 hr).2

/-- Witness for C6: the scenario instantiation of the range branch. -/
theorem applyNumericColumnFilter_range_eval :
    applyNumericColumnFilter Row.goalAmount ⟨200, 400, false⟩ scenarioTbl
      = scenarioTbl.filter (numericRangePred Row.goalAmount 200 400) :=
  (applyNumericColumnFilter_range_and_toggle Row.goalAmount ⟨200, 400, false⟩
    scenarioTbl 100 500 (by decide) (by decide)).1 (by decide)

theorem length_filter_add_length_filter_not {α : Type} (p : α → Bool) (l : List α) :
    (l.filter p).length + (l.filter (fun a => !p a)).length = l.length := by
  induction l with
  | nil => rfl
  | cons a t ih =>
    cases h : p a <;> simp [List.filter_cons, h] <;> omega

theorem contains_dupIndices (p : Row → Bool) (tbl : List Row) (i : Nat) (r : Row)
    (hmem : (i, r) ∈ tbl.enum) : (dupIndices p tbl).contains i = p r := by
  cases hp : p r with
  | true =>
    have hin : i ∈ (tbl.enum.filter (fun q => p q.2)).map Prod.fst := by
      refine List.mem_map.2 ⟨(i, r), ?_, rfl⟩
      exact List.mem_filter.2 ⟨hmem, hp⟩
    exact List.elem_iff.2 hin
  | false =>
    have hnotmem : i ∉ (tbl.enum.filter (fun q => p q.2)).map Prod.fst := by
      intro hin
      obtain ⟨q, hq, hq1⟩ := List.mem_map.1 hin
      have hqf := List.mem_filter.1 hq
      have hget1 := List.mem_enum_iff_getElem?.1 hqf.1
      have hget2 := List.mem_enum_iff_getElem?.1 hmem
      rw [hq1] at hget1
      rw [hget2] at hget1
      have hr : q.2 = r := by
        have := Option.some.inj hget1
        exact this.symm ▸ rfl
      rw [hr] at hqf
      rw [hqf.2] at hp
      exact Bool.noConfusion hp
    cases hb : (dupIndices p tbl).contains i with
    | false => rfl
    | true => exact absurd (List.elem_iff.1 hb) hnotmem

theorem map_snd_filter_snd {α : Type} (g : α → Bool) (t : List α) :
    ∀ n : Nat, ((List.enumFrom n t).filter (fun q => g q.2)).map Prod.snd = t.filter g := by
  induction t with
  | nil => intro n; rfl
  | cons a t ih =>
    intro n
    rw [List.enumFrom_cons]
    cases hg : g a <;> simp [List.filter_cons, hg, ih (n+1)]

theorem dropByLabels_dupIndices (p : Row → Bool) (tbl : List Row) :
    dropByLabels tbl (dupIndices p tbl) = tbl.filter (fun r => !p r) := by
  unfold dropByLabels
  have hcongr : tbl.enum.filter (fun q => !(dupIndices p tbl).contains q.1)
      = tbl.enum.filter (fun q => !p q.2) := by
    apply List.filter_congr
    intro x hx
    rw [contains_dupIndices p tbl x.1 x.2 hx]
  rw [hcongr, List.enum_eq_enumFrom]
  exact map_snd_filter_snd (fun r => !p r) tbl 0

/-- C1: with a non-empty duplicate set, removing duplicates and saving yields
the table with exactly the matched rows removed and the candidate appended
(row count down by the number of matches, up by one net); saving anyway
appends the candidate with no removals (row count up by exactly one); cancel
leaves the table and the persisted store unchanged. -/
theorem resolveDuplicate_row_counts (dr pat mob : String) (cand : Row)
    (tbl : List Row) (store : Option (List Row)) (hstore : store = some tbl)
    (hdup : tbl.filter (maskDup dr pat mob) ≠ []) :
    ((resolveDuplicate .removeAndSave dr pat mob cand tbl store).1
        = tbl.filter (fun r => !maskDup dr pat mob r) ++ [cand]
      ∧ (resolveDuplicate .removeAndSave dr pat mob cand tbl store).1.length
          + (tbl.filter (maskDup dr pat mob)).length
          = tbl.length + 1)
    ∧ ((resolveDuplicate .saveAnyway dr pat mob cand tbl store).1 = tbl ++ [cand]
      ∧ (resolveDuplicate .saveAnyway dr pat mob cand tbl store).1.length
          = tbl.length + 1)
    ∧ resolveDuplicate .cancel dr pat mob cand tbl store = (tbl, store) := by
  have hrm : (resolveDuplicate .removeAndSave dr pat mob cand tbl store).1
      = tbl.filter (fun r => !maskDup dr pat mob r) ++ [cand] := by
    show dropByLabels tbl (dupIndices (maskDup dr pat mob) tbl) ++ [cand] = _
    rw [dropByLabels_dupIndices]
  refine ⟨⟨hrm, ?_⟩, ⟨?_, ?_⟩, rfl⟩
  · rw [hrm]
    have hlf := length_filter_add_length_filter_not (maskDup dr pat mob) tbl
    rw [List.length_append]
    simp only [List.length_cons, List.length_nil]
    omega
  · subst hstore; rfl
  · subst hstore
    show (tbl ++ [cand]).length = tbl.length + 1
    rw [List.length_append]
    rfl

/-- Witness for C1: the remove-and-save outcome on a concrete two-row table
with one matching row. -/
theorem resolveDuplicate_row_counts_eval :
    (resolveDuplicate DupChoice.removeAndSave "Dr. Rao" "Asha" "9876543210" cand0
        [raoRow, raoRowOtherMobile] (some [raoRow, raoRowOtherMobile])).1.length
      + ([raoRow, raoRowOtherMobile].filter (maskDup "Dr. Rao" "Asha" "9876543210")).length
      = [raoRow, raoRowOtherMobile].length + 1 :=
  (resolveDuplicate_row_counts "Dr. Rao" "Asha" "9876543210" cand0
    [raoRow, raoRowOtherMobile] (some [raoRow, raoRowOtherMobile]) rfl (by decide)).1.2

theorem rawNumRows_ensureStep (acc : RawTable) (c : String) :
    rawNumRows (ensureStep acc c) = rawNumRows acc := by
  unfold ensureStep
  split
  · rfl
  · cases acc with
    | nil => simp [rawNumRows]
    | cons q t => simp [rawNumRows, List.cons_append]

theorem rawNumRows_fold (cols : List String) :
    ∀ acc : RawTable, rawNumRows (cols.foldl ensureStep acc) = rawNumRows acc := by
  induction cols with
  | nil => intro acc; rfl
  | cons c cs ih => intro acc; rw [List.foldl_cons, ih, rawNumRows_ensureStep]

theorem find?_append_of_some {α : Type} {l₁ l₂ : List α} {f : α → Bool} {a : α}
    (h : l₁.find? f = some a) : (l₁ ++ l₂).find? f = some a := by
  rw [List.find?_append, h]
  rfl

theorem find?_append_of_none {α : Type} {l₁ l₂ : List α} {f : α → Bool}
    (h : l₁.find? f = Option.none) : (l₁ ++ l₂).find? f = l₂.find? f := by
  rw [List.find?_append, h]
  rfl

theorem rawHasCol_false_find?_none (df : RawTable) (c : String)
    (h : rawHasCol df c = false) : df.find? (fun q => q.1 == c) = Option.none := by
  rw [List.find?_eq_none]
  intro q hq
  have := List.any_eq_false.1 h q hq
  simpa using this

theorem rawGetCol_fold_preserve (cols : List String) :
    ∀ (acc : RawTable) (c : String) (v : List PyVal),
      rawGetCol acc c = some v → rawGetCol (cols.foldl ensureStep acc) c = some v := by
  induction cols with
  | nil => intro acc c v h; exact h
  | cons c0 cs ih =>
    intro acc c v h
    rw [List.foldl_cons]
    apply ih
    unfold ensureStep
    split
    · exact h
    · unfold rawGetCol at h ⊢
      obtain ⟨q, hq, hq2⟩ := Option.map_eq_some'.1 h
      rw [find?_append_of_some hq]
      simp [hq2]

theorem rawHasCol_append (df : RawTable) (x : String × List PyVal) (c : String) :
    rawHasCol (df ++ [x]) c = (rawHasCol df c || (x.1 == c)) := by
  simp [rawHasCol, List.any_append]

theorem rawGetCol_fold_missing (cols : List String) :
    ∀ (acc : RawTable) (c : String), c ∈ cols → rawHasCol acc c = false →
      rawGetCol (cols.foldl ensureStep acc) c
        = some (List.replicate (rawNumRows acc) (PyVal.str "")) := by
  induction cols with
  | nil => intro acc c hc; exact absurd hc (List.not_mem_nil c)
  | cons c0 cs ih =>
    intro acc c hc hmiss
    rw [List.foldl_cons]
    by_cases hc0 : c0 = c
    · subst hc0
      have hstep : ensureStep acc c0
          = acc ++ [(c0, List.replicate (rawNumRows acc) (PyVal.str ""))] := by
        unfold ensureStep
        rw [if_neg]
        rw [hmiss]
        exact Bool.false_ne_true
      have hget : rawGetCol (ensureStep acc c0) c0
          = some (List.replicate (rawNumRows acc) (PyVal.str "")) := by
        rw [hstep]
        unfold rawGetCol
        rw [find?_append_of_none (rawHasCol_false_find?_none acc c0 hmiss)]
        simp
      exact rawGetCol_fold_preserve cs _ _ _ hget
    · have hc2 : c ∈ cs := by
        rcases List.mem_cons.1 hc with h | h
        · exact absurd h.symm hc0
        · exact h
      have hmiss2 : rawHasCol (ensureStep acc c0) c = false := by
        unfold ensureStep
        split
        · exact hmiss
        · rw [rawHasCol_append, hmiss]
          simp
          exact fun hbeq => hc0 hbeq
      have hrows := rawNumRows_ensureStep acc c0
      rw [← hrows]
      exact ih (ensureStep acc c0) c hc2 hmiss2

theorem rawGetCol_sel_map (g : String → List PyVal) (l : List String) (c : String)
    (hc : c ∈ l) :
    rawGetCol (l.map (fun x => (x, g x))) c = some (g c) := by
  induction l with
  | nil => exact absurd hc (List.not_mem_nil c)
  | cons x xs ih =>
    rw [List.map_cons]
    unfold rawGetCol
    by_cases hx : x = c
    · subst hx
      rw [List.find?_cons_of_pos]
      · rfl
      · simp
    · rw [List.find?_cons_of_neg]
      · exact ih (by
          rcases List.mem_cons.1 hc with h | h
          · exact absurd h.symm hx
          · exact h)
      · simp
        exact fun hbeq => hx hbeq

theorem ensure_columns_colNames (df : RawTable) :
    rawColNames (ensure_columns df) = EXPECTED_COLS := by
  unfold ensure_columns rawColNames
  rfl

theorem ensure_columns_getCol_missing (df : RawTable) (c : String)
    (hc : c ∈ EXPECTED_COLS) (hmiss : rawHasCol df c = false) :
    rawGetCol (ensure_columns df) c
      = some (List.replicate (rawNumRows df) (PyVal.str "")) := by
  unfold ensure_columns
  rw [rawGetCol_sel_map _ _ _ hc]
  rw [rawGetCol_fold_missing EXPECTED_COLS df c hc hmiss]
  rfl

theorem rawHasCol_setCol (df : RawTable) (a c : String) (v : List PyVal) :
    rawHasCol (rawSetCol df a v) c = rawHasCol df c := by
  induction df with
  | nil => rfl
  | cons q t ih =>
    have h1 : rawSetCol (q :: t) a v
        = (if q.1 == a then (q.1, v) else q) :: rawSetCol t a v := rfl
    rw [h1]
    unfold rawHasCol
    rw [List.any_cons, List.any_cons]
    have hh : (if q.1 == a then ((q.1, v) : String × List PyVal) else q).1 = q.1 := by
      split <;> rfl
    rw [hh]
    unfold rawHasCol at ih
    rw [ih]

theorem rawNumRows_setCol_entry (df : RawTable) (dc : List PyVal → List PyVal)
    (hdc : ∀ l, (dc l).length = l.length) :
    rawNumRows (rawSetCol df "Entry Date" (dc ((rawGetCol df "Entry Date").getD [])))
      = rawNumRows df := by
  cases df with
  | nil => rfl
  | cons q t =>
    set v := dc ((rawGetCol (q :: t) "Entry Date").getD []) with hv
    have hsc : rawSetCol (q :: t) "Entry Date" v
        = (if q.1 == "Entry Date" then (q.1, v) else q) :: rawSetCol t "Entry Date" v := rfl
    rw [hsc]
    by_cases h : q.1 == "Entry Date"
    · rw [if_pos h]
      show v.length = q.2.length
      rw [hv]
      have hget : rawGetCol (q :: t) "Entry Date" = some q.2 := by
        unfold rawGetCol
        rw [List.find?_cons_of_pos t h]
        rfl
      rw [hget]
      exact hdc q.2
    · rw [if_neg h]
      rfl

/-- C4: `load_data` always returns a table whose columns are exactly the
eight expected columns in the fixed order; an absent persisted file yields
the empty table with those columns; a present file has every missing
expected column added, filled with empty text over the file's rows.
The date coercion preserves column length, as elementwise
`pd.to_datetime(...).dt.date` does. -/
theorem load_data_schema (dc : List PyVal → List PyVal)
    (hdc : ∀ l, (dc l).length = l.length) (store : Option RawTable) :
    rawColNames (load_data dc store) = EXPECTED_COLS
    ∧ load_data dc Option.none = EXPECTED_COLS.map (fun c => (c, ([] : List PyVal)))
    ∧ (∀ raw c, store = some raw → c ∈ EXPECTED_COLS → rawHasCol raw c = false →
        rawGetCol (load_data dc store) c
          = some (List.replicate (rawNumRows raw) (PyVal.str ""))) := by
  refine ⟨?_, rfl, ?_⟩
  · cases store with
    | none => rfl
    | some raw => exact ensure_columns_colNames _
  · intro raw c hst hc hmiss
    subst hst
    show rawGetCol
        (ensure_columns
          (if rawHasCol raw "Entry Date" = true then
            rawSetCol raw "Entry Date" (dc ((rawGetCol raw "Entry Date").getD []))
          else raw)) c
      = some (List.replicate (rawNumRows raw) (PyVal.str ""))
    by_cases hed : rawHasCol raw "Entry Date"
    · rw [if_pos hed]
      have h1 : rawHasCol
          (rawSetCol raw "Entry Date" (dc ((rawGetCol raw "Entry Date").getD []))) c
          = false := by
        rw [rawHasCol_setCol]
        exact hmiss
      have h2 := ensure_columns_getCol_missing _ c hc h1
      rw [h2, rawNumRows_setCol_entry raw dc hdc]
    · rw [if_neg hed]
      exact ensure_columns_getCol_missing raw c hc hmiss

/-- Witness for C4: loading a two-row legacy table that lacks the City
column materializes it as two empty-text cells, with the identity date
coercion. -/
theorem load_data_schema_eval :
    rawGetCol (load_data (fun l => l) (some legacyDf)) "City"
      = some (List.replicate 2 (PyVal.str "")) :=
  (load_data_schema (fun l => l) (fun _ => rfl) (some legacyDf)).2.2 legacyDf "City"
    rfl (by decide) (by decide)

/-- C9: `ensure_columns` returns a table whose columns are exactly the eight
expected columns, so any input column outside the expected set is silently
dropped from the result. -/
theorem ensure_columns_only_expected (df : RawTable) (c : String)
    (hc : c ∉ EXPECTED_COLS) :
    rawColNames (ensure_columns df) = EXPECTED_COLS
    ∧ c ∉ rawColNames (ensure_columns df) := by
  have h := ensure_columns_colNames df
  exact ⟨h, by rw [h]; exact hc⟩

/-- Witness for C9: the extra column of a concrete table is dropped. -/
theorem ensure_columns_only_expected_eval :
    "Extra" ∉ rawColNames (ensure_columns extraDf) :=
  (ensure_columns_only_expected extraDf "Extra" (by decide)).2
